import Mathlib

/-!
Verification of the two conversion scripts of the `cms_media_guide` repository.

Pipeline B (`separate_latex_tables.py`) reads one LaTeX document, extracts
`\subsection` / `\subsubsection` / body triples with the regular expression

  `(\subsection\{[^}]+\})\s*(\subsubsection\{[^}]+\})\s*(.*?)(?=\subsection\{|\end\{document\}|$)`

under `re.DOTALL`, routes each record through a fixed name-to-destination
dictionary and assembles one output file per destination.

Pipeline A (`populate_eventprofiles.py`) walks spreadsheet rows, groups them
into events at each non-empty first column, and renders one LaTeX table per
event with alternating row colours.

The embedding below is shallow and executable: file writes become an explicit
list of write events, `random.choice` becomes selection by an arbitrary
`pick : Nat -> Nat` stream (an `IndexError` on an empty pool becomes an error
outcome), and the Python regular-expression scan is implemented as the
deterministic left-to-right scan that the backtracking engine performs on this
particular pattern.
-/

/-! ### Python string helpers -/

/-- Python's `\s` character class restricted to ASCII, which is what both
scripts' data contains: space, tab, newline, carriage return, vertical tab,
form feed. Also the character set stripped by `str.strip()`. -/
def pySpace (c : Char) : Bool :=
  c == ' ' || c == '\t' || c == '\n' || c == '\r' || c == '\x0b' || c == '\x0c'

/-- `str.strip()` on a character list. -/
def pyStripL (l : List Char) : List Char :=
  ((l.dropWhile pySpace).reverse.dropWhile pySpace).reverse

/-- `str.strip()` on a string. -/
def pyStripS (s : String) : String :=
  String.mk (pyStripL s.data)

/-- Drop an expected literal from the front of the input; `none` if the input
does not start with the literal. -/
def dropLit (lit cs : List Char) : Option (List Char) :=
  if lit.isPrefixOf cs then some (cs.drop lit.length) else none

/-- Does `lit` occur as a contiguous sublist of `cs`? -/
def containsLit (lit : List Char) : List Char → Bool
  | [] => lit.isPrefixOf []
  | c :: cs => lit.isPrefixOf (c :: cs) || containsLit lit cs

/-! ### Section extraction (`extract_sections_from_latex`) -/

/-- The literal `\subsection{`. -/
def subsecLit : List Char := "\\subsection\x7b".data

/-- The literal `\subsubsection{`. -/
def subsubLit : List Char := "\\subsubsection\x7b".data

/-- The literal `\end{document}`. -/
def endDocLit : List Char := "\\end\x7bdocument\x7d".data

/-- One extracted section record: the dictionary built in
`extract_sections_from_latex` (the redundant raw `subsection` /
`subsubsection` strings it also stores are determined by `section_name` and
`sex` and are never read downstream). `content` is stored stripped, exactly as
in the source. -/
structure SectionRec where
  section_name : String
  sex : String
  content : String
  deriving DecidableEq

/-- Match `[^}]+\}`: the greedy name capture of the pattern followed by the
closing brace. Returns the captured name and the input after the brace. -/
def readName (cs : List Char) : Option (List Char × List Char) :=
  match cs.dropWhile (· != '\x7d') with
  | '\x7d' :: rest =>
    if (cs.takeWhile (· != '\x7d')).isEmpty then none
    else some (cs.takeWhile (· != '\x7d'), rest)
  | _ => none

/-- The lookahead `(?=\subsection\{|\end\{document\}|$)` of the pattern, at a
suffix of the document: Python's `$` (without `re.MULTILINE`) matches at the
end of the string or just before a final newline. -/
def lookAt (cs : List Char) : Bool :=
  subsecLit.isPrefixOf cs || endDocLit.isPrefixOf cs || cs.isEmpty || cs == ['\n']

/-- The lazy body capture `(.*?)` under `re.DOTALL`: consume as few characters
as possible until the lookahead succeeds. Returns (captured body, rest). -/
def splitBody : List Char → List Char × List Char
  | [] => ([], [])
  | c :: cs =>
    if lookAt (c :: cs) then ([], c :: cs)
    else
      let p := splitBody cs
      (c :: p.1, p.2)

/-- Attempt the whole pattern at the current position. On this pattern the
backtracking engine is deterministic: each greedy piece takes its maximum and
never needs to give characters back (the pieces following `[^}]+` and `\s*`
cannot match inside the runs those quantifiers consume). -/
def matchAt (cs : List Char) : Option (SectionRec × List Char) :=
  match dropLit subsecLit cs with
  | none => none
  | some cs1 =>
    match readName cs1 with
    | none => none
    | some (n1, cs3) =>
      match dropLit subsubLit (cs3.dropWhile pySpace) with
      | none => none
      | some cs5 =>
        match readName cs5 with
        | none => none
        | some (n2, cs7) =>
          let bp := splitBody (cs7.dropWhile pySpace)
          some (⟨String.mk n1, String.mk n2, String.mk (pyStripL bp.1)⟩, bp.2)

/-- `re.findall` scanning: try the pattern at every position from left to
right; after a match, resume at the position where the match ended (the
lookahead consumes nothing). Fuel-indexed so that the definition is structural
and evaluates by kernel reduction. -/
def scanFuel : Nat → List Char → List SectionRec
  | 0, _ => []
  | fuel + 1, cs =>
    match matchAt cs with
    | some (s, rest) => s :: scanFuel fuel rest
    | none =>
      match cs with
      | [] => []
      | _ :: cs' => scanFuel fuel cs'

/-- All section records of a document, in scan order. -/
def scanFrom (cs : List Char) : List SectionRec :=
  scanFuel (cs.length + 1) cs

/-- `extract_sections_from_latex`, on the text of the input file. -/
def extract_sections_from_latex (doc : String) : List SectionRec :=
  scanFrom doc.data

/-- Position-instrumented scan: identical traversal to `scanFuel`, but each
record is paired with the document position at which its match begins. -/
def psFuel : Nat → List Char → Nat → List (Nat × SectionRec)
  | 0, _, _ => []
  | fuel + 1, cs, p =>
    match matchAt cs with
    | some (s, rest) => (p, s) :: psFuel fuel rest (p + (cs.length - rest.length))
    | none =>
      match cs with
      | [] => []
      | _ :: cs' => psFuel fuel cs' (p + 1)

/-- Records with their match positions. -/
def posScan (cs : List Char) (p : Nat) : List (Nat × SectionRec) :=
  psFuel (cs.length + 1) cs p

/-! ### Basic length lemmas for the scanner -/

theorem length_dropWhile_le {α : Type} (p : α → Bool) (l : List α) :
    (l.dropWhile p).length ≤ l.length := by
  induction l with
  | nil => simp [List.dropWhile]
  | cons c cs ih =>
    simp only [List.dropWhile]
    cases p c
    · simp
    · simp
      omega

theorem dropLit_some {lit cs r : List Char} (h : dropLit lit cs = some r) :
    r.length + lit.length = cs.length := by
  unfold dropLit at h
  split at h
  · rename_i hp
    have hle : lit.length ≤ cs.length := by
      have : lit <+: cs := List.isPrefixOf_iff_prefix.mp hp
      exact this.length_le
    cases h
    simp [List.length_drop]
    omega
  · cases h

theorem readName_some {cs n r : List Char} (h : readName cs = some (n, r)) :
    r.length < cs.length ∧ n = cs.takeWhile (· != '\x7d') := by
  unfold readName at h
  split at h
  · rename_i rest hdw
    split at h
    · cases h
    · rw [Option.some.injEq, Prod.mk.injEq] at h
      obtain ⟨hn, hr⟩ := h
      subst hn hr
      constructor
      · have h1 : (cs.dropWhile (· != '\x7d')).length ≤ cs.length :=
          length_dropWhile_le _ _
        rw [hdw] at h1
        simp at h1
        omega
      · rfl
  · cases h

theorem splitBody_snd_le (cs : List Char) : (splitBody cs).2.length ≤ cs.length := by
  induction cs with
  | nil => simp [splitBody]
  | cons c cs ih =>
    simp only [splitBody]
    split
    · simp
    · simpa using Nat.le_succ_of_le ih

theorem matchAt_rest_lt {cs : List Char} {s : SectionRec} {rest : List Char}
    (h : matchAt cs = some (s, rest)) : rest.length < cs.length := by
  unfold matchAt at h
  split at h
  · cases h
  · rename_i cs1 h1
    split at h
    · cases h
    · rename_i n1 cs3 h2
      split at h
      · cases h
      · rename_i cs5 h3
        split at h
        · cases h
        · rename_i n2 cs7 h4
          cases h
          have l1 : cs1.length + subsecLit.length = cs.length := dropLit_some h1
          have l2 : cs3.length < cs1.length := (readName_some h2).1
          have l3 : cs5.length + subsubLit.length = (cs3.dropWhile pySpace).length :=
            dropLit_some h3
          have l4 : (cs3.dropWhile pySpace).length ≤ cs3.length :=
            length_dropWhile_le _ _
          have l5 : cs7.length < cs5.length := (readName_some h4).1
          have l6 : (splitBody (cs7.dropWhile pySpace)).2.length ≤
              (cs7.dropWhile pySpace).length := splitBody_snd_le _
          have l7 : (cs7.dropWhile pySpace).length ≤ cs7.length :=
            length_dropWhile_le _ _
          omega

/-! ### Fuel adequacy and unfolding equations for the scanners -/

theorem scanFuel_adequate :
    ∀ (f1 : Nat) (cs : List Char) (f2 : Nat), cs.length < f1 → cs.length < f2 →
      scanFuel f1 cs = scanFuel f2 cs := by
  intro f1
  induction f1 with
  | zero => intro cs f2 h1 _; omega
  | succ k ih =>
    intro cs f2 h1 h2
    match f2, h2 with
    | m + 1, h2 =>
      show scanFuel (k + 1) cs = scanFuel (m + 1) cs
      simp only [scanFuel]
      split
      · rename_i s rest hm
        have hr : rest.length < cs.length := matchAt_rest_lt hm
        rw [ih rest m (by omega) (by omega)]
      · match cs with
        | [] => rfl
        | c :: cs' =>
          simp only []
          exact ih cs' m (by simp at h1 ⊢; omega) (by simp at h2 ⊢; omega)

theorem scanFrom_match {cs : List Char} {s : SectionRec} {rest : List Char}
    (h : matchAt cs = some (s, rest)) : scanFrom cs = s :: scanFrom rest := by
  have hr : rest.length < cs.length := matchAt_rest_lt h
  have h1 : scanFrom cs = s :: scanFuel cs.length rest := by
    unfold scanFrom
    simp only [scanFuel, h]
  rw [h1]
  have h2 : scanFuel cs.length rest = scanFuel (rest.length + 1) rest :=
    scanFuel_adequate cs.length rest (rest.length + 1) (by omega) (by omega)
  rw [h2]
  rfl

theorem scanFrom_skip_one {c : Char} {cs : List Char}
    (h : matchAt (c :: cs) = none) : scanFrom (c :: cs) = scanFrom cs := by
  unfold scanFrom
  simp only [List.length_cons, scanFuel, h]

theorem scanFrom_nil : scanFrom [] = [] := rfl

theorem psFuel_adequate :
    ∀ (f1 : Nat) (cs : List Char) (p : Nat) (f2 : Nat), cs.length < f1 → cs.length < f2 →
      psFuel f1 cs p = psFuel f2 cs p := by
  intro f1
  induction f1 with
  | zero => intro cs p f2 h1 _; omega
  | succ k ih =>
    intro cs p f2 h1 h2
    match f2, h2 with
    | m + 1, h2 =>
      show psFuel (k + 1) cs p = psFuel (m + 1) cs p
      simp only [psFuel]
      split
      · rename_i s rest hm
        have hr : rest.length < cs.length := matchAt_rest_lt hm
        rw [ih rest _ m (by omega) (by omega)]
      · match cs with
        | [] => rfl
        | c :: cs' =>
          simp only []
          exact ih cs' _ m (by simp at h1 ⊢; omega) (by simp at h2 ⊢; omega)

theorem posScan_match {cs : List Char} {s : SectionRec} {rest : List Char} {p : Nat}
    (h : matchAt cs = some (s, rest)) :
    posScan cs p = (p, s) :: posScan rest (p + (cs.length - rest.length)) := by
  have hr : rest.length < cs.length := matchAt_rest_lt h
  have h1 : posScan cs p = (p, s) :: psFuel cs.length rest (p + (cs.length - rest.length)) := by
    unfold posScan
    simp only [psFuel, h]
  rw [h1]
  have h2 : psFuel cs.length rest (p + (cs.length - rest.length)) =
      psFuel (rest.length + 1) rest (p + (cs.length - rest.length)) :=
    psFuel_adequate cs.length rest _ (rest.length + 1) (by omega) (by omega)
  rw [h2]
  rfl

theorem posScan_skip_one {c : Char} {cs : List Char} {p : Nat}
    (h : matchAt (c :: cs) = none) : posScan (c :: cs) p = posScan cs (p + 1) := by
  unfold posScan
  simp only [List.length_cons, psFuel, h]

theorem posScan_nil (p : Nat) : posScan [] p = [] := rfl

/-! ### Fixed mappings (`create_section_mapping`, `get_sex_mapping`) -/

/-- The key/value pairs of the fixed, hand-maintained name-to-destination
dictionary, in source order. -/
def section_pairs : List (String × String) :=
  [("CMS All Time Top 10", "team"),
   ("CMS Axelrood Pool Records", "team"),
   ("CMS Frosh Swimming & Diving Records", "team"),
   ("Development of Team Records (October 2001 to March 2025)", "team"),
   ("CMS at UCSD", "dual"),
   ("CMS at Cal Baptist Distance Meet", "dual"),
   ("CMS at PP", "dual"),
   ("CMS at PP Combined", "dual"),
   ("CMS SCIAC Champions", "champs"),
   ("SCIAC All Time Top 10 Performers", "champs"),
   ("SCIAC Records", "champs"),
   ("NCAA TOP 20", "champs")]

/-- The dictionary built by `create_section_mapping`. Lookup is `dict.get`:
exact string match of the key, `none` when absent. -/
def create_section_mapping (n : String) : Option String :=
  (section_pairs.find? (fun p => p.1 == n)).map Prod.snd

/-- The sex-label dictionary; `sex_mapping.get(sex, sex)` passes unknown
labels through unchanged. -/
def get_sex_mapping (s : String) : String :=
  if s = "Athena" then "Athenas"
  else if s = "Stag" then "Stags"
  else if s = "Women" then "Women"
  else if s = "Men" then "Men"
  else s

/-- The `target_file` values the main program iterates over. -/
def target_files : List String := ["champs", "dual", "team"]

/-! ### Per-destination assembly (`write_section_to_file`) -/

/-- `create_title_page_latex`: the decorative page template, with the three
interpolated holes. -/
def create_title_page_latex (section_name subsection_name image_path : String) : String :=
  "\n\\newpage\n\\thispagestyle\x7bempty\x7d\n\\begin\x7bcenter\x7d\n\\vspace*\x7b1cm\x7d\n\n" ++
  "% Title section at the top\n\\begin\x7btikzpicture\x7d[overlay, remember picture]\n" ++
  "    % Semi-transparent background for text\n" ++
  "    \\fill[white, opacity=0.9] ($(current page.north) + (-6cm, -2cm)$) rectangle ($(current page.north) + (6cm, -6cm)$);\n    \n" ++
  "    % Section title\n" ++
  "    \\node[anchor=center, text width=12cm, align=center] at ($(current page.north) + (0, -3.5cm)$) \x7b\n" ++
  "        \\fontsize\x7b36pt\x7d\x7b40pt\x7d\\selectfont\\textbf\x7b\\textcolor\x7bteamprimary\x7d\x7b" ++
  section_name ++
  "\x7d\x7d\n    \x7d;\n    \n    % Subsection title\n" ++
  "    \\node[anchor=center, text width=12cm, align=center] at ($(current page.north) + (0, -4.5cm)$) \x7b\n" ++
  "        \\fontsize\x7b24pt\x7d\x7b28pt\x7d\\selectfont\\textbf\x7b\\textcolor\x7bteamsecondary\x7d\x7b" ++
  subsection_name ++
  "\x7d\x7d\n    \x7d;\n\\end\x7btikzpicture\x7d\n\n% Image below the title\n\\vspace*\x7b4cm\x7d\n" ++
  "\\begin\x7btikzpicture\x7d[overlay, remember picture]\n" ++
  "    \\node[anchor=center] at ($(current page.center) + (0, -1cm)$) \x7b\n" ++
  "        \\includegraphics[width=0.6\\textwidth, height=0.5\\textheight, keepaspectratio]\x7b" ++
  image_path ++
  "\x7d\n    \x7d;\n\\end\x7btikzpicture\x7d\n\n\\vfill\n\\end\x7bcenter\x7d\n\\clearpage\n"

/-- One `f.write(...)` event of `write_section_to_file`, tagged by the write
site in the source. -/
inductive Wr where
  /-- the per-target header written right after opening the file -/
  | header (s : String)
  /-- the `f.write("\n")` spacing between groups -/
  | spacing
  /-- a `\subsection{...}` heading emission -/
  | heading (name : String)
  /-- the decorative title page for one record -/
  | titlePage (section_name mapped_sex image : String)
  /-- the stripped body content of one record (followed by a blank line) -/
  | body (s : String)
  deriving DecidableEq

/-- The exact string each write event sends to the file. -/
def Wr.render : Wr → String
  | .header s => s
  | .spacing => "\n"
  | .heading n => "\\subsection\x7b" ++ n ++ "\x7d\n"
  | .titlePage a b c => create_title_page_latex a b c
  | .body s => s ++ "\n\n"

/-- Result of one `write_section_to_file` call. `noFile` carries the printed
diagnostic; `crashed` is the `IndexError` raised by `random.choice` on an
empty image list, carrying the writes performed before the exception. -/
inductive WriteOutcome where
  | noFile (diagnostic : String)
  | written (ws : List Wr)
  | crashed (ws : List Wr)
  deriving DecidableEq

/-- The records routed to one target: the filter
`section_mapping.get(section_name) == target_file`. -/
def fileSections (sections : List SectionRec) (target : String)
    (mapping : String → Option String) : List SectionRec :=
  sections.filter (fun s => mapping s.section_name == some target)

/-- The if/elif chain writing the fixed header for each target file. -/
def headerWrites (target : String) : List Wr :=
  if target = "champs" then [Wr.header "\\section\x7bChampionship Records\x7d\n\n"]
  else if target = "dual" then [Wr.header "\\section\x7bDual Meet Records\x7d\n\n"]
  else if target = "team" then
    [Wr.header "% chktex-file 8\n\n\\section\x7bTeam Records\x7d\n\n"]
  else []

/-- `random.choice(images)` with the k-th value of the pseudo-random stream:
an arbitrary index reduced modulo the pool size. On an empty pool `get?`
returns `none`, the model of the `IndexError`. -/
def randomChoice (images : List String) (n : Nat) : Option String :=
  images.get? (n % images.length)

/-- The body of the `for section in file_sections` loop. `cur` is
`current_section`, `k` counts the `random.choice` calls already made.
`.error ws` models the `IndexError` escaping the loop after writes `ws`. -/
def writeLoop (sexMap : String → String) (images : List String) (pick : Nat → Nat) :
    List SectionRec → Option String → Nat → Except (List Wr) (List Wr)
  | [], _, _ => .ok []
  | s :: rest, cur, k =>
    let hw : List Wr :=
      if cur ≠ some s.section_name then
        (if cur = none then [] else [Wr.spacing]) ++ [Wr.heading s.section_name]
      else []
    match randomChoice images (pick k) with
    | none => .error hw
    | some img =>
      let tp := Wr.titlePage s.section_name (sexMap s.sex) img
      let cw : List Wr :=
        if pyStripS s.content ≠ "" then [Wr.body (pyStripS s.content)] else []
      match writeLoop sexMap images pick rest (some s.section_name) (k + 1) with
      | .error ws => .error (hw ++ tp :: cw ++ ws)
      | .ok ws => .ok (hw ++ tp :: cw ++ ws)

/-- `write_section_to_file`: filter the records for this target; print a
diagnostic and write nothing when there are none; otherwise open the file,
write the header and run the loop. -/
def write_section_to_file (sections : List SectionRec) (target : String)
    (mapping : String → Option String) (sexMap : String → String)
    (images : List String) (pick : Nat → Nat) : WriteOutcome :=
  let fs := fileSections sections target mapping
  if fs = [] then .noFile ("No sections found for " ++ target ++ ".tex")
  else
    match writeLoop sexMap images pick fs none 0 with
    | .error ws => .crashed (headerWrites target ++ ws)
    | .ok ws => .written (headerWrites target ++ ws)

/-- The heading emissions among a list of write events. -/
def emittedHeadings (ws : List Wr) : List String :=
  ws.filterMap (fun w => match w with | .heading n => some n | _ => none)

/-- Heading emissions of an outcome (none when no file was written). -/
def headingsOfOutcome : WriteOutcome → List String
  | .noFile _ => []
  | .written ws => emittedHeadings ws
  | .crashed ws => emittedHeadings ws

/-- Does the outcome correspond to the output file being created on disk
(the `open(output_path, 'w')` call being reached)? -/
def createsFile : WriteOutcome → Bool
  | .noFile _ => false
  | .written _ => true
  | .crashed _ => true

/-- Specification-side grouping rule, written from the spec's words: walking
the routed records, a heading is emitted for a record exactly when its
`section_name` differs from the previous record's name (always, for the first
record). `cur` is the previous record's name. -/
def cpAux (cur : Option String) : List String → List String
  | [] => []
  | b :: rest => (if cur ≠ some b then [b] else []) ++ cpAux (some b) rest

/-! ### Pipeline A: spreadsheet rows (`create_latex_content_from_data`) -/

/-- One spreadsheet row as the script reads it. `event` is `iloc[0]` (`none`
for NaN), `year` is `iloc[1]` after the `int(...)` coercion, and the eight
threshold cells are `iloc[2..5]` (prelims) and `iloc[7..10]` (finals), each
already rendered to the string the f-string template would print (`none` for
NaN, which the script replaces by the empty string). `gap` is the unused
`iloc[6]` column. -/
structure Row where
  event : Option String
  year : Option Int
  p1 : Option String
  p8 : Option String
  p9 : Option String
  p16 : Option String
  gap : Option String
  f1 : Option String
  f8 : Option String
  f9 : Option String
  f16 : Option String
  deriving DecidableEq

/-- One entry of `event_data`: a year with its eight rendered cells. -/
structure RowData where
  year : Int
  p1 : String
  p8 : String
  p9 : String
  p16 : String
  f1 : String
  f8 : String
  f9 : String
  f16 : String
  deriving DecidableEq

/-- `pd.notna(row.iloc[0]) and row.iloc[0].strip()`: the row starts a new
event. -/
def isMarker (r : Row) : Bool :=
  match r.event with
  | some s => pyStripS s != ""
  | none => false

/-- The stripped event name of a marker row. -/
def markerName (r : Row) : String :=
  pyStripS (r.event.getD "")

/-- `pd.notna(row.iloc[1])` and the coerced year is truthy (`if year:`). -/
def validYear (r : Row) : Bool :=
  match r.year with
  | some y => y != 0
  | none => false

/-- The `event_data.append({...})` record for a row. -/
def mkRowData (y : Int) (r : Row) : RowData :=
  ⟨y, r.p1.getD "", r.p8.getD "", r.p9.getD "", r.p16.getD "",
    r.f1.getD "", r.f8.getD "", r.f9.getD "", r.f16.getD ""⟩

/-- The year-data block of the loop body: append one entry when the year
column is not NaN and the coerced year is nonzero. -/
def yearData (r : Row) : List RowData :=
  match r.year with
  | some y => if y != 0 then [mkRowData y r] else []
  | none => []

/-- `if current_event and event_data:` — emit the pending event. Python
truthiness: `None` and the empty string are falsy, and so is an empty list. -/
def flushEvent : Option String → List RowData → List (String × List RowData)
  | none, _ => []
  | some e, data => if e = "" then [] else if data = [] then [] else [(e, data)]

/-- The `for i in range(5, len(df))` loop plus the final flush, returning the
`(current_event, event_data)` pairs passed to `create_event_latex`, in
order. -/
def epLoop : List Row → Option String → List RowData → List (String × List RowData)
  | [], cur, data => flushEvent cur data
  | r :: rs, cur, data =>
    if isMarker r then
      flushEvent cur data ++ epLoop rs (some (markerName r)) (yearData r)
    else
      epLoop rs cur (data ++ yearData r)

/-- The `\begin{tabular}` line of every event table. -/
def tabularLine : String :=
  "\\begin\x7btabular\x7d\x7b|>\x7b\\columncolor\x7bblue!20\x7d\x7dc|c|c|c|c|c|c|c|c|\x7d"

/-- The even-parity data-row background marker. -/
def grayLine : String := "\\rowcolor\x7bgray!10\x7d"

/-- The odd-parity data-row background marker. -/
def whiteLine : String := "\\rowcolor\x7bwhite\x7d"

/-- One rendered data row of an event table. -/
def rowLine (d : RowData) : String :=
  toString d.year ++ (" & " ++ (d.p1 ++ " & " ++ d.p8 ++ " & " ++ d.p9 ++ " & " ++
    d.p16 ++ " & " ++ d.f1 ++ " & " ++ d.f8 ++ " & " ++ d.f9 ++ " & " ++
    d.f16 ++ " \\\\"))

/-- The `for i, data in enumerate(event_data)` loop: a colour line then a data
row, with the colour chosen by the parity of the enumeration index `i`. -/
def eventRows : Nat → List RowData → List String
  | _, [] => []
  | i, d :: ds =>
    (if i % 2 = 0 then grayLine else whiteLine) :: rowLine d :: eventRows (i + 1) ds

/-- `create_event_latex`: the list of lines appended for one event. The
`headers` argument is accepted, as in the source, and never used. -/
def create_event_latex (event_name : String) (event_data : List RowData)
    (headers : List String) : List String :=
  ["\\textbf\x7b" ++ event_name ++ "\x7d", "",
   "\\begin\x7bflushleft\x7d",
   tabularLine,
   "\\hline",
   "\\rowcolor\x7bblue!30\x7d",
   "Year & \\multicolumn\x7b4\x7d\x7bc|\x7d\x7bPrelims\x7d & \\multicolumn\x7b4\x7d\x7bc|\x7d\x7bFinals\x7d \\\\",
   "\\cline\x7b2-9\x7d",
   "\\rowcolor\x7bblue!30\x7d",
   "& 1st & 8th & 9th & 16th & 1st & 8th & 9th & 16th \\\\",
   "\\hline"]
  ++ eventRows 0 event_data
  ++ ["\\hline", "\\end\x7btabular\x7d", "\\end\x7bflushleft\x7d", ""]

/-- `df.iloc[4].tolist()`: row 4 rendered as the (unused) column headers. -/
def rowToCells (r : Row) : List String :=
  [r.event.getD "", (r.year.map toString).getD "",
   r.p1.getD "", r.p8.getD "", r.p9.getD "", r.p16.getD "", r.gap.getD "",
   r.f1.getD "", r.f8.getD "", r.f9.getD "", r.f16.getD ""]

/-- The header row passed to `create_event_latex`. -/
def headersOf (df : List Row) : List String :=
  match df.get? 4 with
  | some r => rowToCells r
  | none => []

/-- The flat `latex_content` line list of the main rendering branch. -/
def eventLatexLines (df : List Row) : List String :=
  (epLoop (df.drop 5) none []).flatMap (fun g => create_event_latex g.1 g.2 (headersOf df))

/-- `create_latex_content_from_data`: the returned string. -/
def create_latex_content_from_data (df : List Row) (event_type gender : String) : String :=
  if df = [] then "% No data available for " ++ event_type ++ " " ++ gender ++ "\n"
  else if df.length < 5 then
    "% Insufficient data for " ++ event_type ++ " " ++ gender ++ "\n"
  else String.intercalate "\n" (eventLatexLines df)

/-- The number of table blocks the sheet's rendering emits: occurrences of
the `\begin{tabular}` line among the emitted lines. -/
def tableBlockCount (df : List Row) : Nat :=
  if df = [] then 0
  else if df.length < 5 then 0
  else (eventLatexLines df).count tabularLine

/-- The number of event markers encountered during the data scan (which
starts at row index 5). -/
def markersEncountered (df : List Row) : Nat :=
  (df.drop 5).countP isMarker

/-- Specification-side grouping of the scanned rows: each group starts at a
marker row and runs up to the next marker; rows before the first marker
belong to no group. Fuel-indexed to stay structural. -/
def mgFuel : Nat → List Row → List (List Row)
  | 0, _ => []
  | _ + 1, [] => []
  | f + 1, r :: rs =>
    if isMarker r then
      (r :: rs.takeWhile (fun x => !isMarker x)) :: mgFuel f (rs.dropWhile (fun x => !isMarker x))
    else mgFuel f rs

/-- The marker-delimited groups of a row list. -/
def markerGroups (rows : List Row) : List (List Row) :=
  mgFuel (rows.length + 1) rows

/-- Does a group contain at least one row with a usable year? -/
def hasValidYear (g : List Row) : Bool := g.any validYear

/-! ### Marker-group lemmas -/

theorem mgFuel_adequate :
    ∀ (f1 : Nat) (rows : List Row) (f2 : Nat), rows.length < f1 → rows.length < f2 →
      mgFuel f1 rows = mgFuel f2 rows := by
  intro f1
  induction f1 with
  | zero => intro rows f2 h1 _; omega
  | succ k ih =>
    intro rows f2 h1 h2
    match f2, h2 with
    | m + 1, h2 =>
      match rows with
      | [] => rfl
      | r :: rs =>
        show mgFuel (k + 1) (r :: rs) = mgFuel (m + 1) (r :: rs)
        simp only [mgFuel]
        split
        · have hd : (rs.dropWhile (fun x => !isMarker x)).length ≤ rs.length :=
            length_dropWhile_le _ _
          simp only [List.length_cons] at h1 h2
          rw [ih (rs.dropWhile (fun x => !isMarker x)) m (by omega) (by omega)]
        · simp only [List.length_cons] at h1 h2
          exact ih rs m (by omega) (by omega)

theorem markerGroups_nil : markerGroups [] = [] := rfl

theorem markerGroups_cons_marker {r : Row} {rs : List Row} (h : isMarker r = true) :
    markerGroups (r :: rs) =
      (r :: rs.takeWhile (fun x => !isMarker x)) ::
        markerGroups (rs.dropWhile (fun x => !isMarker x)) := by
  unfold markerGroups
  simp only [List.length_cons, mgFuel, h, if_pos]
  congr 1
  have hd : (rs.dropWhile (fun x => !isMarker x)).length ≤ rs.length :=
    length_dropWhile_le _ _
  exact mgFuel_adequate (rs.length + 1) _ _ (by omega) (by omega)

theorem markerGroups_cons_nonmarker {r : Row} {rs : List Row} (h : isMarker r = false) :
    markerGroups (r :: rs) = markerGroups rs := by
  unfold markerGroups
  simp only [List.length_cons, mgFuel, h, Bool.false_eq_true, if_false]

/-! ### Event-loop counting lemmas -/

theorem markerName_ne_empty {r : Row} (h : isMarker r = true) : markerName r ≠ "" := by
  unfold isMarker at h
  unfold markerName
  match hr : r.event with
  | none => rw [hr] at h; cases h
  | some s =>
    rw [hr] at h
    simp only [bne_iff_ne, ne_eq] at h
    simpa using h

theorem yearData_ne_iff (r : Row) : yearData r ≠ [] ↔ validYear r = true := by
  unfold yearData validYear
  match r.year with
  | none => simp
  | some y =>
    by_cases hy : y = 0
    · simp [hy]
    · simp [hy]


theorem flushEvent_length {e : String} (he : e ≠ "") (data : List RowData) :
    (flushEvent (some e) data).length = if data = [] then 0 else 1 := by
  simp only [flushEvent, if_neg he]
  by_cases hd : data = []
  · simp [hd]
  · simp [hd]

theorem epLoop_length_some :
    ∀ (rs : List Row) (e : String) (data : List RowData), e ≠ "" →
      (epLoop rs (some e) data).length =
        (if data ≠ [] ∨ (rs.takeWhile (fun x => !isMarker x)).any validYear = true
          then 1 else 0) +
        (markerGroups (rs.dropWhile (fun x => !isMarker x))).countP hasValidYear := by
  intro rs
  induction rs with
  | nil =>
    intro e data he
    simp only [epLoop, List.takeWhile_nil, List.dropWhile_nil, List.any_nil,
      markerGroups_nil, List.countP_nil, flushEvent_length he]
    by_cases hd : data = []
    · simp [hd]
    · simp [hd]
  | cons r rs ih =>
    intro e data he
    by_cases hm : isMarker r = true
    · have hm' : markerName r ≠ "" := markerName_ne_empty hm
      simp only [epLoop, hm, if_pos, List.length_append]
      rw [flushEvent_length he, ih (markerName r) (yearData r) hm']
      have htw : (r :: rs).takeWhile (fun x => !isMarker x) = [] := by
        simp [List.takeWhile_cons, hm]
      have hdw : (r :: rs).dropWhile (fun x => !isMarker x) = r :: rs := by
        simp [List.dropWhile_cons, hm]
      rw [htw, hdw, markerGroups_cons_marker hm, List.countP_cons]
      have e1 : (yearData r ≠ [] ∨
            (rs.takeWhile (fun x => !isMarker x)).any validYear = true) ↔
          hasValidYear (r :: rs.takeWhile (fun x => !isMarker x)) = true := by
        rw [yearData_ne_iff]
        simp [hasValidYear]
      simp only [List.any_nil, Bool.false_eq_true, or_false, e1]
      by_cases hd : data = []
      · by_cases hh : hasValidYear (r :: rs.takeWhile (fun x => !isMarker x)) = true
        · simp [hd, hh]
          try omega
        · simp [hd, hh]
          try omega
      · by_cases hh : hasValidYear (r :: rs.takeWhile (fun x => !isMarker x)) = true
        · simp [hd, hh]
          try omega
        · simp [hd, hh]
          try omega
    · simp only [Bool.not_eq_true] at hm
      simp only [epLoop, hm, Bool.false_eq_true, if_false]
      rw [ih e (data ++ yearData r) he]
      have htw : (r :: rs).takeWhile (fun x => !isMarker x) =
          r :: rs.takeWhile (fun x => !isMarker x) := by
        simp [List.takeWhile_cons, hm]
      have hdw : (r :: rs).dropWhile (fun x => !isMarker x) =
          rs.dropWhile (fun x => !isMarker x) := by
        simp [List.dropWhile_cons, hm]
      rw [htw, hdw]
      congr 1
      have e2 : (data ++ yearData r ≠ [] ∨
            (rs.takeWhile (fun x => !isMarker x)).any validYear = true) ↔
          (data ≠ [] ∨
            (r :: rs.takeWhile (fun x => !isMarker x)).any validYear = true) := by
        have hc1 : data ++ yearData r ≠ [] ↔ (data ≠ [] ∨ validYear r = true) := by
          rw [← yearData_ne_iff]
          simp only [ne_eq, List.append_eq_nil]
          tauto
        have hc2 : ((r :: rs.takeWhile (fun x => !isMarker x)).any validYear = true) ↔
            (validYear r = true ∨
              (rs.takeWhile (fun x => !isMarker x)).any validYear = true) := by
          simp
        rw [hc1, hc2]
        tauto
      simp only [e2]

theorem epLoop_length_none :
    ∀ (rs : List Row) (data : List RowData),
      (epLoop rs none data).length = (markerGroups rs).countP hasValidYear := by
  intro rs
  induction rs with
  | nil => intro data; simp [epLoop, flushEvent, markerGroups_nil]
  | cons r rs ih =>
    intro data
    by_cases hm : isMarker r = true
    · have hm' : markerName r ≠ "" := markerName_ne_empty hm
      simp only [epLoop, hm, if_pos, flushEvent, List.nil_append]
      rw [epLoop_length_some rs (markerName r) (yearData r) hm']
      rw [markerGroups_cons_marker hm, List.countP_cons]
      have e1 : (yearData r ≠ [] ∨
            (rs.takeWhile (fun x => !isMarker x)).any validYear = true) ↔
          hasValidYear (r :: rs.takeWhile (fun x => !isMarker x)) = true := by
        rw [yearData_ne_iff]
        simp [hasValidYear]
      simp only [e1]
      by_cases hh : hasValidYear (r :: rs.takeWhile (fun x => !isMarker x)) = true
      · simp [hh]
        omega
      · simp [hh]
    · simp only [Bool.not_eq_true] at hm
      simp only [epLoop, hm, Bool.false_eq_true, if_false]
      rw [ih (data ++ yearData r), markerGroups_cons_nonmarker hm]

/-! ### Counting the emitted table blocks -/

/-- `(a ++ b).data` unfolds to the concatenation of the character lists. -/
theorem strData_append (a b : String) : (a ++ b).data = a.data ++ b.data := rfl

theorem textbf_ne_tab (n : String) : "\\textbf\x7b" ++ n ++ "\x7d" ≠ tabularLine := by
  intro h
  have h2 : ("\\textbf\x7b" ++ n ++ "\x7d").data.get? 1 = tabularLine.data.get? 1 := by
    rw [h]
  have h3 : ("\\textbf\x7b" ++ n ++ "\x7d").data.get? 1 = some 't' := rfl
  have h4 : tabularLine.data.get? 1 = some 'b' := rfl
  rw [h3, h4] at h2
  simp at h2

theorem amp_mem_rowLine (d : RowData) : '&' ∈ (rowLine d).data := by
  unfold rowLine
  rw [strData_append]
  refine List.mem_append.mpr (Or.inr ?_)
  rw [strData_append]
  refine List.mem_append.mpr (Or.inl ?_)
  decide

theorem rowLine_ne_tab (d : RowData) : rowLine d ≠ tabularLine := by
  intro h
  have hm := amp_mem_rowLine d
  rw [h] at hm
  have : '&' ∉ tabularLine.data := by decide
  exact this hm

theorem eventRows_count_tab : ∀ (i : Nat) (d : List RowData),
    (eventRows i d).count tabularLine = 0 := by
  intro i d
  induction d generalizing i with
  | nil => simp [eventRows]
  | cons x ds ih =>
    simp only [eventRows, List.count_cons]
    rw [ih (i + 1)]
    have h1 : (rowLine x == tabularLine) = false :=
      beq_eq_false_iff_ne.mpr (rowLine_ne_tab x)
    have h2 : ((if i % 2 = 0 then grayLine else whiteLine) == tabularLine) = false := by
      by_cases hp : i % 2 = 0
      · rw [if_pos hp]
        decide
      · rw [if_neg hp]
        decide
    rw [h1, h2]
    simp

theorem count_tab_event (n : String) (d : List RowData) (h : List String) :
    (create_event_latex n d h).count tabularLine = 1 := by
  unfold create_event_latex
  rw [List.count_append, List.count_append]
  rw [eventRows_count_tab 0 d]
  have hsuf : (["\\hline", "\\end\x7btabular\x7d", "\\end\x7bflushleft\x7d", ""] :
      List String).count tabularLine = 0 := by decide
  rw [hsuf]
  rw [List.count_cons]
  have hbf : (("\\textbf\x7b" ++ n ++ "\x7d") == tabularLine) = false :=
    beq_eq_false_iff_ne.mpr (textbf_ne_tab n)
  rw [hbf]
  have hrest : (["", "\\begin\x7bflushleft\x7d", tabularLine, "\\hline",
      "\\rowcolor\x7bblue!30\x7d",
      "Year & \\multicolumn\x7b4\x7d\x7bc|\x7d\x7bPrelims\x7d & \\multicolumn\x7b4\x7d\x7bc|\x7d\x7bFinals\x7d \\\\",
      "\\cline\x7b2-9\x7d", "\\rowcolor\x7bblue!30\x7d",
      "& 1st & 8th & 9th & 16th & 1st & 8th & 9th & 16th \\\\", "\\hline"] :
      List String).count tabularLine = 1 := by decide
  rw [hrest]
  simp

theorem sum_map_one (L : List (String × List RowData)) :
    (L.map (fun _ => (1 : Nat))).sum = L.length := by
  induction L with
  | nil => rfl
  | cons x xs ih =>
    simp [ih]
    omega

/-! ### eventRows indexing -/

theorem eventRows_length (d : List RowData) : ∀ j, (eventRows j d).length = 2 * d.length := by
  induction d with
  | nil => intro j; simp [eventRows]
  | cons x ds ih =>
    intro j
    simp only [eventRows, List.length_cons, ih (j + 1), List.length_cons]
    omega

theorem eventRows_get (d : List RowData) :
    ∀ (i j : Nat), i < d.length →
      (eventRows j d).get? (2 * i) =
        some (if (j + i) % 2 = 0 then grayLine else whiteLine) := by
  induction d with
  | nil => intro i j hi; simp at hi
  | cons x ds ih =>
    intro i j hi
    match i with
    | 0 => simp [eventRows]
    | k + 1 =>
      have h2 : 2 * (k + 1) = 2 * k + 2 := by omega
      have h3 : j + (k + 1) = j + 1 + k := by omega
      rw [h2, h3]
      show (eventRows (j + 1) ds).get? (2 * k) = _
      exact ih k (j + 1) (by rw [List.length_cons] at hi; omega)

/-! ### Write-loop lemmas -/

theorem randomChoice_some {images : List String} (h : images ≠ []) (n : Nat) :
    ∃ img, randomChoice images n = some img := by
  unfold randomChoice
  have hl : 0 < images.length := List.length_pos.mpr h
  have hm : n % images.length < images.length := Nat.mod_lt n hl
  exact ⟨images.get ⟨n % images.length, hm⟩, List.get?_eq_get hm⟩

theorem emittedHeadings_append (a b : List Wr) :
    emittedHeadings (a ++ b) = emittedHeadings a ++ emittedHeadings b := by
  simp [emittedHeadings]

theorem writeLoop_ok (sexMap : String → String) (images : List String) (pick : Nat → Nat)
    (himg : images ≠ []) :
    ∀ (l : List SectionRec) (cur : Option String) (k : Nat),
      ∃ ws, writeLoop sexMap images pick l cur k = .ok ws ∧
        emittedHeadings ws = cpAux cur (l.map SectionRec.section_name) := by
  intro l
  induction l with
  | nil => intro cur k; exact ⟨[], rfl, rfl⟩
  | cons s rest ih =>
    intro cur k
    obtain ⟨img, himg'⟩ := randomChoice_some himg (pick k)
    obtain ⟨ws, hok, hh⟩ := ih (some s.section_name) (k + 1)
    refine ⟨(if cur ≠ some s.section_name then
        (if cur = none then [] else [Wr.spacing]) ++ [Wr.heading s.section_name]
      else []) ++
      Wr.titlePage s.section_name (sexMap s.sex) img ::
        ((if pyStripS s.content ≠ "" then [Wr.body (pyStripS s.content)] else []) ++ ws),
      ?_, ?_⟩
    · simp only [writeLoop, himg', hok]
      simp [List.append_assoc]
    · rw [emittedHeadings_append]
      have h1 : emittedHeadings
          (Wr.titlePage s.section_name (sexMap s.sex) img ::
            ((if pyStripS s.content ≠ "" then [Wr.body (pyStripS s.content)] else []) ++ ws)) =
          emittedHeadings ws := by
        by_cases hc : pyStripS s.content = ""
        · simp [emittedHeadings, hc]
        · simp [emittedHeadings, hc]
      rw [h1, hh]
      by_cases hc : cur = some s.section_name
      · simp [emittedHeadings, hc, cpAux]
      · by_cases hn : cur = none
        · simp [emittedHeadings, hc, hn, cpAux]
        · simp [emittedHeadings, hc, hn, cpAux]

theorem mem_fileSections {sections : List SectionRec} {t : String}
    {mapping : String → Option String} {s : SectionRec} :
    s ∈ fileSections sections t mapping ↔
      s ∈ sections ∧ mapping s.section_name = some t := by
  simp [fileSections, List.mem_filter]

/-! ### Scanner positional lemmas -/

theorem posScan_ge :
    ∀ (n : Nat) (cs : List Char), cs.length ≤ n →
      ∀ (p : Nat) (q : Nat × SectionRec), q ∈ posScan cs p → p ≤ q.1 := by
  intro n
  induction n with
  | zero =>
    intro cs h p q hq
    have : cs = [] := List.length_eq_zero.mp (by omega)
    rw [this, posScan_nil] at hq
    cases hq
  | succ k ih =>
    intro cs h p q hq
    cases hm : matchAt cs with
    | some sr =>
      obtain ⟨s, rest⟩ := sr
      rw [posScan_match hm, List.mem_cons] at hq
      rcases hq with hq | hq
      · rw [hq]
      · have hr : rest.length < cs.length := matchAt_rest_lt hm
        have := ih rest (by omega) _ q hq
        omega
    | none =>
      match cs with
      | [] => rw [posScan_nil] at hq; cases hq
      | c :: cs' =>
        rw [posScan_skip_one hm] at hq
        have := ih cs' (by simp at h ⊢; omega) (p + 1) q hq
        omega

theorem posScan_pairwise :
    ∀ (n : Nat) (cs : List Char), cs.length ≤ n →
      ∀ (p : Nat), (posScan cs p).Pairwise (fun a b => a.1 < b.1) := by
  intro n
  induction n with
  | zero =>
    intro cs h p
    have : cs = [] := List.length_eq_zero.mp (by omega)
    rw [this, posScan_nil]
    exact List.Pairwise.nil
  | succ k ih =>
    intro cs h p
    cases hm : matchAt cs with
    | some sr =>
      obtain ⟨s, rest⟩ := sr
      rw [posScan_match hm]
      have hr : rest.length < cs.length := matchAt_rest_lt hm
      refine List.pairwise_cons.mpr ⟨?_, ih rest (by omega) _⟩
      intro q hq
      have := posScan_ge rest.length rest le_rfl _ q hq
      simp only
      omega
    | none =>
      match cs with
      | [] => rw [posScan_nil]; exact List.Pairwise.nil
      | c :: cs' =>
        rw [posScan_skip_one hm]
        exact ih cs' (by simp at h ⊢; omega) (p + 1)

theorem posScan_snd :
    ∀ (n : Nat) (cs : List Char), cs.length ≤ n →
      ∀ (p : Nat), (posScan cs p).map Prod.snd = scanFrom cs := by
  intro n
  induction n with
  | zero =>
    intro cs h p
    have : cs = [] := List.length_eq_zero.mp (by omega)
    rw [this, posScan_nil, scanFrom_nil]
    rfl
  | succ k ih =>
    intro cs h p
    cases hm : matchAt cs with
    | some sr =>
      obtain ⟨s, rest⟩ := sr
      rw [posScan_match hm, scanFrom_match hm]
      have hr : rest.length < cs.length := matchAt_rest_lt hm
      simp only [List.map_cons]
      rw [ih rest (by omega) _]
    | none =>
      match cs with
      | [] => rw [posScan_nil, scanFrom_nil]; rfl
      | c :: cs' =>
        rw [posScan_skip_one hm, scanFrom_skip_one hm]
        exact ih cs' (by simp at h ⊢; omega) (p + 1)

/-! ### Heading match/skip lemmas -/

theorem isPrefixOf_append_self (l x : List Char) : l.isPrefixOf (l ++ x) = true :=
  List.isPrefixOf_iff_prefix.mpr (List.prefix_append l x)

theorem dropLit_append (lit x : List Char) : dropLit lit (lit ++ x) = some x := by
  unfold dropLit
  rw [if_pos (isPrefixOf_append_self lit x), List.drop_left]

theorem not_subsec_prefix_of_head {c : Char} (cs : List Char) (h : c ≠ '\\') :
    subsecLit.isPrefixOf (c :: cs) = false := by
  have he : subsecLit = '\\' :: "subsection\x7b".data := rfl
  rw [he]
  simp only [List.isPrefixOf]
  rw [beq_eq_false_iff_ne.mpr (Ne.symm h)]
  simp

theorem matchAt_none_of_not_subsec {cs : List Char}
    (h : subsecLit.isPrefixOf cs = false) : matchAt cs = none := by
  unfold matchAt dropLit
  rw [h]
  simp

theorem scanFrom_skip_run :
    ∀ (pre suffix : List Char), (∀ c ∈ pre, c ≠ '\\') →
      scanFrom (pre ++ suffix) = scanFrom suffix := by
  intro pre
  induction pre with
  | nil => intro suffix _; rfl
  | cons c pre' ih =>
    intro suffix hc
    have h1 : matchAt (c :: (pre' ++ suffix)) = none :=
      matchAt_none_of_not_subsec
        (not_subsec_prefix_of_head _ (hc c (List.mem_cons_self _ _)))
    show scanFrom (c :: (pre' ++ suffix)) = scanFrom suffix
    rw [scanFrom_skip_one h1]
    exact ih suffix (fun d hd => hc d (List.mem_cons_of_mem c hd))

theorem takeWhile_all_app {α : Type} (p : α → Bool) (a : List α) (b : α) (rest : List α)
    (ha : ∀ c ∈ a, p c = true) (hb : p b = false) :
    (a ++ b :: rest).takeWhile p = a := by
  induction a with
  | nil => simp [List.takeWhile_cons, hb]
  | cons x xs ih =>
    have hx : p x = true := ha x (List.mem_cons_self _ _)
    simp only [List.cons_append, List.takeWhile_cons, hx, if_pos]
    rw [ih (fun c hc => ha c (List.mem_cons_of_mem x hc))]

theorem dropWhile_all_cons {α : Type} (p : α → Bool) (a : List α) (b : α) (rest : List α)
    (ha : ∀ c ∈ a, p c = true) (hb : p b = false) :
    (a ++ b :: rest).dropWhile p = b :: rest := by
  induction a with
  | nil => simp [List.dropWhile_cons, hb]
  | cons x xs ih =>
    have hx : p x = true := ha x (List.mem_cons_self _ _)
    simp only [List.cons_append, List.dropWhile_cons, hx, if_pos]
    exact ih (fun c hc => ha c (List.mem_cons_of_mem x hc))

theorem dropWhile_all_app {α : Type} (p : α → Bool) (a l : List α)
    (ha : ∀ c ∈ a, p c = true) :
    (a ++ l).dropWhile p = l.dropWhile p := by
  induction a with
  | nil => rfl
  | cons x xs ih =>
    have hx : p x = true := ha x (List.mem_cons_self _ _)
    simp only [List.cons_append, List.dropWhile_cons, hx, if_pos]
    exact ih (fun c hc => ha c (List.mem_cons_of_mem x hc))

theorem dropWhile_head_false {α : Type} (p : α → Bool) (c : α) (l : List α)
    (h : p c = false) : (c :: l).dropWhile p = c :: l := by
  simp [List.dropWhile_cons, h]

theorem readName_exact (n rest : List Char) (h1 : n ≠ []) (h2 : '\x7d' ∉ n) :
    readName (n ++ '\x7d' :: rest) = some (n, rest) := by
  have ha : ∀ c ∈ n, (c != '\x7d') = true :=
    fun c hc => bne_iff_ne.mpr (fun he => h2 (he ▸ hc))
  have hdw : (n ++ '\x7d' :: rest).dropWhile (· != '\x7d') = '\x7d' :: rest :=
    dropWhile_all_cons _ n '\x7d' rest ha (by decide)
  have htw : (n ++ '\x7d' :: rest).takeWhile (· != '\x7d') = n :=
    takeWhile_all_app _ n '\x7d' rest ha (by decide)
  unfold readName
  rw [hdw, htw]
  simp [h1]

theorem splitBody_exact :
    ∀ (body suffix : List Char),
      (∀ i, i < body.length → lookAt (body.drop i ++ suffix) = false) →
      lookAt suffix = true →
      splitBody (body ++ suffix) = (body, suffix) := by
  intro body
  induction body with
  | nil =>
    intro suffix _ h9
    match suffix with
    | [] => rfl
    | c :: cs => simp [splitBody, h9]
  | cons b bs ih =>
    intro suffix h8 h9
    have h0 : lookAt (b :: (bs ++ suffix)) = false := by
      have := h8 0 (by simp)
      simpa using this
    show splitBody (b :: (bs ++ suffix)) = (b :: bs, suffix)
    simp only [splitBody, h0, Bool.false_eq_true, if_false]
    have hrec : splitBody (bs ++ suffix) = (bs, suffix) := by
      refine ih suffix (fun i hi => ?_) h9
      have := h8 (i + 1) (by simp; omega)
      simpa using this
    rw [hrec]

/-! ### Concrete inputs used by witnesses and counterexamples -/

/-- The four routed records of the spec's grouping example. -/
def exampleRecords : List SectionRec :=
  [⟨"A", "Men", "body1"⟩, ⟨"A", "Women", "body2"⟩,
   ⟨"B", "Men", "body3"⟩, ⟨"A", "Men", "body4"⟩]

/-- The hypothetical mapping of the grouping example: both names go to
`team`. -/
def exampleMapping : String → Option String :=
  fun n => if n = "A" then some "team" else if n = "B" then some "team" else none

/-- A spreadsheet row with every cell NaN. -/
def blankRow : Row :=
  ⟨none, none, none, none, none, none, none, none, none, none, none⟩

/-- Five layout rows followed by an event marker that has no usable year. -/
def dfMarkerNoYear : List Row :=
  [blankRow, blankRow, blankRow, blankRow, blankRow,
   { blankRow with event := some "Solo" }]

/-- An event marker row carrying year 2021 and no threshold data. -/
def soloRow2021 : Row :=
  ⟨some "Solo", some 2021, none, none, none, none, none, none, none, none, none⟩

/-- Five layout rows followed by an event marker row carrying year 2021. -/
def dfOneEvent : List Row :=
  [blankRow, blankRow, blankRow, blankRow, blankRow, soloRow2021]

/-- The two data rows of the spec's `100 Free` example. -/
def exampleEventData : List RowData :=
  [⟨2021, "1", "8", "9", "16", "1", "8", "9", "16"⟩,
   ⟨2022, "2", "9", "10", "17", "2", "9", "10", "17"⟩]

/-- The `100 Free` sheet of the spec's example: five layout rows, then the
marker row for 2021 and a continuation row for 2022. -/
def df100Free : List Row :=
  [blankRow, blankRow, blankRow, blankRow, blankRow,
   ⟨some "100 Free", some 2021, some "1", some "8", some "9", some "16", none,
    some "1", some "8", some "9", some "16"⟩,
   ⟨none, some 2022, some "2", some "9", some "10", some "17", none,
    some "2", some "9", some "10", some "17"⟩]

/-! ### Small assembly helpers -/

theorem emittedHeadings_headerWrites (t : String) :
    emittedHeadings (headerWrites t) = [] := by
  unfold headerWrites
  split_ifs <;> rfl

theorem no_subsec_scan (cs : List Char) (h : containsLit subsecLit cs = false) :
    scanFrom cs = [] := by
  induction cs with
  | nil => rfl
  | cons c cs' ih =>
    unfold containsLit at h
    rw [Bool.or_eq_false_iff] at h
    have h1 : matchAt (c :: cs') = none := matchAt_none_of_not_subsec h.1
    rw [scanFrom_skip_one h1]
    exact ih h.2

/-! ### Claim C1 -/

/-- Claim C1: routing coverage. A record whose `section_name` is a key of the
fixed mapping is routed to exactly one destination (the mapped one, which is
always one of the three target files); a record whose name is absent from the
mapping is routed to no destination. Lookup is exact string equality. -/
theorem routing_coverage (sections : List SectionRec) (s : SectionRec)
    (hs : s ∈ sections) :
    (∀ d, create_section_mapping s.section_name = some d →
      d ∈ target_files ∧
        ∀ t, (s ∈ fileSections sections t create_section_mapping ↔ t = d)) ∧
    (create_section_mapping s.section_name = none →
      ∀ t, s ∉ fileSections sections t create_section_mapping) := by
  constructor
  · intro d hd
    constructor
    · unfold create_section_mapping at hd
      cases hf : section_pairs.find? (fun p => p.1 == s.section_name) with
      | none => rw [hf] at hd; cases hd
      | some p =>
        rw [hf, Option.map_some'] at hd
        have hmem : p ∈ section_pairs := List.mem_of_find?_eq_some hf
        have hdp : d = p.2 := (Option.some.inj hd).symm
        rw [hdp]
        have hall : ∀ q ∈ section_pairs, q.2 ∈ target_files := by decide
        exact hall p hmem
    · intro t
      rw [mem_fileSections]
      constructor
      · rintro ⟨-, hmt⟩
        rw [hd] at hmt
        exact (Option.some.inj hmt).symm
      · rintro rfl
        exact ⟨hs, hd⟩
  · intro hnone t hmem
    rw [mem_fileSections, hnone] at hmem
    cases hmem.2

/-- Witness for C1: `CMS at UCSD` is routed to `dual` and only to `dual`; the
case-variant `cms at ucsd` is routed nowhere. -/
theorem routing_coverage_witness :
    ((⟨"CMS at UCSD", "Men", "x"⟩ : SectionRec) ∈
      fileSections [⟨"CMS at UCSD", "Men", "x"⟩] "dual" create_section_mapping) ∧
    ¬ ((⟨"CMS at UCSD", "Men", "x"⟩ : SectionRec) ∈
      fileSections [⟨"CMS at UCSD", "Men", "x"⟩] "team" create_section_mapping) ∧
    ¬ ((⟨"cms at ucsd", "Men", "x"⟩ : SectionRec) ∈
      fileSections [⟨"cms at ucsd", "Men", "x"⟩] "dual" create_section_mapping) := by
  have h1 := routing_coverage [⟨"CMS at UCSD", "Men", "x"⟩] ⟨"CMS at UCSD", "Men", "x"⟩
    (by simp)
  have h2 := routing_coverage [⟨"cms at ucsd", "Men", "x"⟩] ⟨"cms at ucsd", "Men", "x"⟩
    (by simp)
  refine ⟨?_, ?_, ?_⟩
  · exact ((h1.1 "dual" (by decide)).2 "dual").mpr rfl
  · intro hm
    have := ((h1.1 "dual" (by decide)).2 "team").mp hm
    exact absurd this (by decide)
  · exact h2.2 (by decide) "dual"

/-! ### Claim C2 -/

/-- Counterexample for C2 as stated: for the example records the heading
emissions are "A", "B", "A" in that order — not "A", "A", "B". -/
theorem grouping_order_counterexample :
    headingsOfOutcome (write_section_to_file exampleRecords "team" exampleMapping
        get_sex_mapping ["img.JPG"] (fun _ => 0)) = ["A", "B", "A"] ∧
    headingsOfOutcome (write_section_to_file exampleRecords "team" exampleMapping
        get_sex_mapping ["img.JPG"] (fun _ => 0)) ≠ ["A", "A", "B"] := by
  constructor
  · decide
  · decide

/-- Claim C2 (amended): in the per-destination assembler a heading is emitted
for a record exactly when its `section_name` differs from the previous routed
record's (always for the first); for the example records the emissions are
"A", "B", "A" in source order — three, not two. -/
theorem grouping_stability (sections : List SectionRec) (target : String)
    (mapping : String → Option String) (sexMap : String → String)
    (images : List String) (pick : Nat → Nat) (himg : images ≠ []) :
    headingsOfOutcome (write_section_to_file sections target mapping sexMap images pick) =
      cpAux none ((fileSections sections target mapping).map SectionRec.section_name) := by
  simp only [write_section_to_file]
  by_cases hfs : fileSections sections target mapping = []
  · rw [if_pos hfs, hfs]
    rfl
  · rw [if_neg hfs]
    obtain ⟨ws, hok, hh⟩ := writeLoop_ok sexMap images pick himg
      (fileSections sections target mapping) none 0
    rw [hok]
    show emittedHeadings (headerWrites target ++ ws) = _
    rw [emittedHeadings_append, emittedHeadings_headerWrites, hh]
    rfl

/-- Witness for C2: the amended rule applied to the example yields the
emission list "A", "B", "A" (three emissions). -/
theorem grouping_stability_witness :
    headingsOfOutcome (write_section_to_file exampleRecords "team" exampleMapping
        get_sex_mapping ["img.JPG"] (fun _ => 0)) =
      cpAux none ((fileSections exampleRecords "team" exampleMapping).map
        SectionRec.section_name) ∧
    cpAux none ((fileSections exampleRecords "team" exampleMapping).map
        SectionRec.section_name) = ["A", "B", "A"] :=
  ⟨grouping_stability exampleRecords "team" exampleMapping get_sex_mapping
      ["img.JPG"] (fun _ => 0) (by decide), by decide⟩

/-! ### Claim C5 -/

/-- Claim C5: a destination with zero routed records gets no output file,
only the printed diagnostic; a destination with at least one routed record
gets its (single) output file created. -/
theorem empty_destination_behavior (sections : List SectionRec) (target : String)
    (mapping : String → Option String) (sexMap : String → String)
    (images : List String) (pick : Nat → Nat) :
    (fileSections sections target mapping = [] →
      write_section_to_file sections target mapping sexMap images pick =
        .noFile ("No sections found for " ++ target ++ ".tex")) ∧
    (fileSections sections target mapping ≠ [] →
      createsFile (write_section_to_file sections target mapping sexMap images pick) =
        true) := by
  constructor
  · intro h
    simp only [write_section_to_file]
    rw [if_pos h]
  · intro h
    simp only [write_section_to_file]
    rw [if_neg h]
    cases hw : writeLoop sexMap images pick (fileSections sections target mapping) none 0 with
    | error ws => simp [createsFile]
    | ok ws => simp [createsFile]

/-- Witness for C5: no record routes to `champs`, so that call produces only
the diagnostic; one record routes to `dual`, so that file is created. -/
theorem empty_destination_behavior_witness :
    write_section_to_file [⟨"CMS at UCSD", "Men", "x"⟩] "champs" create_section_mapping
        get_sex_mapping ["i.JPG"] (fun _ => 0) =
      .noFile "No sections found for champs.tex" ∧
    createsFile (write_section_to_file [⟨"CMS at UCSD", "Men", "x"⟩] "dual"
        create_section_mapping get_sex_mapping ["i.JPG"] (fun _ => 0)) = true :=
  ⟨(empty_destination_behavior [⟨"CMS at UCSD", "Men", "x"⟩] "champs"
      create_section_mapping get_sex_mapping ["i.JPG"] (fun _ => 0)).1 (by decide),
   (empty_destination_behavior [⟨"CMS at UCSD", "Men", "x"⟩] "dual"
      create_section_mapping get_sex_mapping ["i.JPG"] (fun _ => 0)).2 (by decide)⟩

/-! ### Claim C3 -/

/-- Counterexample for C3 as stated: a sheet whose only marker row carries no
usable year emits zero table blocks although one event marker is
encountered. -/
theorem block_count_counterexample :
    tableBlockCount dfMarkerNoYear = 0 ∧
    markersEncountered dfMarkerNoYear = 1 ∧
    tableBlockCount dfMarkerNoYear ≠ markersEncountered dfMarkerNoYear := by
  refine ⟨?_, ?_, ?_⟩
  · decide
  · decide
  · decide

/-- Claim C3 (amended): for a sheet with at least five rows, the number of
emitted table blocks equals the number of marker-delimited groups of the
scanned rows that contain at least one row with a usable (non-NaN, nonzero)
year — not the raw number of markers. -/
theorem block_count_amended (df : List Row) (h5 : 5 ≤ df.length) :
    tableBlockCount df = (markerGroups (df.drop 5)).countP hasValidYear := by
  have hne : df ≠ [] := by
    intro h
    rw [h] at h5
    simp at h5
  have hlt : ¬ df.length < 5 := by omega
  unfold tableBlockCount
  rw [if_neg hne, if_neg hlt]
  unfold eventLatexLines
  rw [List.count_flatMap]
  have hmap : List.map
      (List.count tabularLine ∘ fun g => create_event_latex g.1 g.2 (headersOf df))
      (epLoop (df.drop 5) none []) =
      List.map (fun _ => (1 : Nat)) (epLoop (df.drop 5) none []) :=
    List.map_congr_left (fun g _ => by
      simp only [Function.comp_apply]
      exact count_tab_event g.1 g.2 (headersOf df))
  rw [hmap, sum_map_one, epLoop_length_none]

/-- Witness for C3: a sheet with one marker group containing a 2021 row emits
exactly one block, matching the group count. -/
theorem block_count_amended_witness :
    tableBlockCount dfOneEvent = (markerGroups (dfOneEvent.drop 5)).countP hasValidYear ∧
    tableBlockCount dfOneEvent = 1 :=
  ⟨block_count_amended dfOneEvent (by decide), by decide⟩

/-! ### Claim C4 -/

/-- Counterexample for C4 as stated: on a document with no heading pairs,
extraction is empty and the separator writes no file for any of the three
destinations — it does not produce three header-only files. -/
theorem empty_doc_counterexample :
    extract_sections_from_latex "just plain text" = [] ∧
    write_section_to_file (extract_sections_from_latex "just plain text") "champs"
        create_section_mapping get_sex_mapping ["a.JPG"] (fun _ => 0) =
      .noFile "No sections found for champs.tex" ∧
    write_section_to_file (extract_sections_from_latex "just plain text") "dual"
        create_section_mapping get_sex_mapping ["a.JPG"] (fun _ => 0) =
      .noFile "No sections found for dual.tex" ∧
    write_section_to_file (extract_sections_from_latex "just plain text") "team"
        create_section_mapping get_sex_mapping ["a.JPG"] (fun _ => 0) =
      .noFile "No sections found for team.tex" ∧
    write_section_to_file (extract_sections_from_latex "just plain text") "champs"
        create_section_mapping get_sex_mapping ["a.JPG"] (fun _ => 0) ≠
      .written (headerWrites "champs") := by
  refine ⟨?_, ?_, ?_, ?_, ?_⟩ <;> decide

/-- Claim C4 (amended): a document containing no heading marker at all yields
an empty extraction (not an error), and on an empty record list the separator
writes no file for any destination, printing the diagnostic instead. -/
theorem empty_doc_amended :
    (∀ doc : String, containsLit subsecLit doc.data = false →
      extract_sections_from_latex doc = []) ∧
    (∀ (sections : List SectionRec) (target : String) (images : List String)
        (pick : Nat → Nat), sections = [] →
      write_section_to_file sections target create_section_mapping get_sex_mapping
          images pick = .noFile ("No sections found for " ++ target ++ ".tex")) := by
  constructor
  · intro doc h
    exact no_subsec_scan doc.data h
  · intro sections target images pick hs
    subst hs
    rfl

/-- Witness for C4: a concrete markup-free document and the three destination
calls on the empty record list. -/
theorem empty_doc_amended_witness :
    extract_sections_from_latex "no markup at all" = [] ∧
    write_section_to_file [] "team" create_section_mapping get_sex_mapping []
      (fun _ => 0) = .noFile "No sections found for team.tex" :=
  ⟨empty_doc_amended.1 "no markup at all" (by decide),
   empty_doc_amended.2 [] "team" [] (fun _ => 0) rfl⟩

/-! ### Claim C6 -/

/-- Claim C6: extraction is a pure function of the document text (so repeated
runs agree), and the extracted records are listed at strictly increasing
match positions — the order of the headings' occurrence in the document. -/
theorem extraction_order (doc : String) :
    (posScan doc.data 0).map Prod.snd = extract_sections_from_latex doc ∧
    ((posScan doc.data 0).map Prod.fst).Pairwise (· < ·) := by
  constructor
  · exact posScan_snd doc.data.length doc.data le_rfl 0
  · rw [List.pairwise_map]
    exact posScan_pairwise doc.data.length doc.data le_rfl 0

/-! ### Claim C7 -/

/-- Claim C7: within an event table, the i-th data row's background marker is
the gray (even) one for even i and the white (odd) one for odd i, regardless
of the row's year or contents. -/
theorem row_parity_styling (event_name : String) (event_data : List RowData)
    (headers : List String) (i : Nat) (hi : i < event_data.length) :
    (create_event_latex event_name event_data headers).get? (11 + 2 * i) =
      some (if i % 2 = 0 then grayLine else whiteLine) := by
  unfold create_event_latex
  rw [List.append_assoc]
  rw [List.get?_append_right (by simp)]
  have hidx : 11 + 2 * i - ([("\\textbf\x7b" ++ event_name ++ "\x7d" : String), "",
      "\\begin\x7bflushleft\x7d", tabularLine, "\\hline", "\\rowcolor\x7bblue!30\x7d",
      "Year & \\multicolumn\x7b4\x7d\x7bc|\x7d\x7bPrelims\x7d & \\multicolumn\x7b4\x7d\x7bc|\x7d\x7bFinals\x7d \\\\",
      "\\cline\x7b2-9\x7d", "\\rowcolor\x7bblue!30\x7d",
      "& 1st & 8th & 9th & 16th & 1st & 8th & 9th & 16th \\\\",
      "\\hline"]).length = 2 * i := by
    simp
  rw [hidx]
  rw [List.get?_append (by rw [eventRows_length]; omega)]
  have := eventRows_get event_data i 0 hi
  simpa using this

/-- Witness for C7: the spec's `100 Free` example groups into exactly the two
data rows for 2021 and 2022, and those rows receive the gray (even) and white
(odd) markers in that order. -/
theorem row_parity_styling_witness :
    epLoop (df100Free.drop 5) none [] = [("100 Free", exampleEventData)] ∧
    exampleEventData.length = 2 ∧
    (create_event_latex "100 Free" exampleEventData []).get? 11 = some grayLine ∧
    (create_event_latex "100 Free" exampleEventData []).get? 13 = some whiteLine := by
  refine ⟨by decide, by decide, ?_, ?_⟩
  · have := row_parity_styling "100 Free" exampleEventData [] 0 (by decide)
    simpa using this
  · have := row_parity_styling "100 Free" exampleEventData [] 1 (by decide)
    simpa using this

/-! ### Claim C8 -/

/-- Claim C8: a heading whose following non-whitespace text is not a
sub-heading marker is silently excluded (the scan continues past it with no
record and no error), and the pattern matches a heading exactly when a
sub-heading follows up to whitespace, capturing as body everything up to the
next heading marker, the end-of-document marker, or the end of the text. -/
theorem heading_requires_subheading :
    (∀ (n1 suffix : List Char), n1 ≠ [] → '\x7d' ∉ n1 → '\\' ∉ n1 →
      subsubLit.isPrefixOf (suffix.dropWhile pySpace) = false →
      scanFrom (subsecLit ++ n1 ++ '\x7d' :: suffix) = scanFrom suffix) ∧
    (∀ (n1 n2 ws1 ws2 body suffix : List Char),
      n1 ≠ [] → '\x7d' ∉ n1 → n2 ≠ [] → '\x7d' ∉ n2 →
      (∀ c ∈ ws1, pySpace c = true) → (∀ c ∈ ws2, pySpace c = true) →
      (∀ c, (body ++ suffix).head? = some c → pySpace c = false) →
      (∀ i, i < body.length → lookAt (body.drop i ++ suffix) = false) →
      lookAt suffix = true →
      matchAt (subsecLit ++ n1 ++ ['\x7d'] ++ ws1 ++ subsubLit ++ n2 ++ ['\x7d'] ++
          ws2 ++ body ++ suffix) =
        some (⟨String.mk n1, String.mk n2, String.mk (pyStripL body)⟩, suffix)) := by
  constructor
  · intro n1 suffix h1 h2 h3 h4
    have heq : subsecLit ++ n1 ++ '\x7d' :: suffix =
        subsecLit ++ (n1 ++ '\x7d' :: suffix) := by
      rw [List.append_assoc]
    have hm : matchAt (subsecLit ++ n1 ++ '\x7d' :: suffix) = none := by
      rw [heq]
      have hd4 : dropLit subsubLit (suffix.dropWhile pySpace) = none := by
        unfold dropLit
        rw [h4]
        simp
      simp only [matchAt, dropLit_append, readName_exact n1 suffix h1 h2, hd4]
    have hsplit : subsecLit ++ n1 ++ '\x7d' :: suffix =
        '\\' :: ("subsection\x7b".data ++ (n1 ++ '\x7d' :: suffix)) := by
      rw [List.append_assoc]
      rfl
    rw [hsplit] at hm ⊢
    rw [scanFrom_skip_one hm]
    have heq2 : "subsection\x7b".data ++ (n1 ++ '\x7d' :: suffix) =
        ("subsection\x7b".data ++ n1 ++ ['\x7d']) ++ suffix := by
      simp [List.append_assoc]
    rw [heq2]
    refine scanFrom_skip_run _ suffix ?_
    intro c hc
    rcases List.mem_append.mp hc with hc | hc
    · rcases List.mem_append.mp hc with hc | hc
      · have hlit : ∀ x ∈ "subsection\x7b".data, x ≠ '\\' := by decide
        exact hlit c hc
      · exact fun he => h3 (he ▸ hc)
    · have : c = '\x7d' := by simpa using hc
      rw [this]
      decide
  · intro n1 n2 ws1 ws2 body suffix h1 h2 h3 h4 h5 h6 h7 h8 h9
    have e0 : subsecLit ++ n1 ++ ['\x7d'] ++ ws1 ++ subsubLit ++ n2 ++ ['\x7d'] ++
        ws2 ++ body ++ suffix =
        subsecLit ++ (n1 ++ '\x7d' ::
          (ws1 ++ (subsubLit ++ (n2 ++ '\x7d' :: (ws2 ++ (body ++ suffix)))))) := by
      simp [List.append_assoc]
    rw [e0]
    have r1 : readName (n1 ++ '\x7d' ::
        (ws1 ++ (subsubLit ++ (n2 ++ '\x7d' :: (ws2 ++ (body ++ suffix)))))) =
        some (n1, ws1 ++ (subsubLit ++ (n2 ++ '\x7d' :: (ws2 ++ (body ++ suffix))))) :=
      readName_exact _ _ h1 h2
    have d1 : (ws1 ++ (subsubLit ++ (n2 ++ '\x7d' :: (ws2 ++ (body ++ suffix))))).dropWhile
        pySpace = subsubLit ++ (n2 ++ '\x7d' :: (ws2 ++ (body ++ suffix))) := by
      rw [dropWhile_all_app pySpace ws1 _ h5]
      have hsub : subsubLit ++ (n2 ++ '\x7d' :: (ws2 ++ (body ++ suffix))) =
          '\\' :: ("subsubsection\x7b".data ++ (n2 ++ '\x7d' :: (ws2 ++ (body ++ suffix)))) :=
        rfl
      rw [hsub]
      exact dropWhile_head_false _ _ _ (by decide)
    have r2 : readName (n2 ++ '\x7d' :: (ws2 ++ (body ++ suffix))) =
        some (n2, ws2 ++ (body ++ suffix)) := readName_exact _ _ h3 h4
    have d3 : (ws2 ++ (body ++ suffix)).dropWhile pySpace = body ++ suffix := by
      rw [dropWhile_all_app pySpace ws2 _ h6]
      cases hb : body ++ suffix with
      | nil => rfl
      | cons c rest =>
        have hc := h7 c (by rw [hb]; rfl)
        exact dropWhile_head_false _ _ _ hc
    have sb : splitBody (body ++ suffix) = (body, suffix) :=
      splitBody_exact body suffix h8 h9
    simp only [matchAt, dropLit_append, r1, d1, r2, d3, sb]

/-- Witness for C8: `\subsection{A}` followed by plain text yields no record
and the scan continues; `\subsection{A}\subsubsection{B}` followed by body
`xy` at the end of the document matches with body `xy`. -/
theorem heading_requires_subheading_witness :
    scanFrom (subsecLit ++ ['A'] ++ '\x7d' :: " hello there".data) =
      scanFrom " hello there".data ∧
    matchAt (subsecLit ++ ['A'] ++ ['\x7d'] ++ [] ++ subsubLit ++ ['B'] ++ ['\x7d'] ++
        [] ++ "xy".data ++ []) =
      some (⟨String.mk ['A'], String.mk ['B'], String.mk (pyStripL "xy".data)⟩, []) :=
  ⟨heading_requires_subheading.1 ['A'] " hello there".data (by decide) (by decide)
      (by decide) (by decide),
   heading_requires_subheading.2 ['A'] ['B'] [] [] "xy".data [] (by decide) (by decide)
      (by decide) (by decide) (by decide) (by decide) (by decide) (by decide) (by decide)⟩

/-! ### Claim C9 -/

/-- Claim C9: with an empty image pool and at least one routed record, the
assembler raises the `random.choice` `IndexError` after the file has been
opened, its header written and the first heading emitted; with a non-empty
pool the normal completion branch is reached for every input. -/
theorem empty_image_pool_crash (sections : List SectionRec) (target : String)
    (mapping : String → Option String) (sexMap : String → String) (pick : Nat → Nat)
    (s0 : SectionRec) (rest : List SectionRec)
    (hfs : fileSections sections target mapping = s0 :: rest)
    (ht : target ∈ target_files) :
    write_section_to_file sections target mapping sexMap [] pick =
      .crashed (headerWrites target ++ [Wr.heading s0.section_name]) ∧
    headerWrites target ≠ [] ∧
    (∀ images : List String, images ≠ [] →
      ∃ ws, write_section_to_file sections target mapping sexMap images pick =
        .written ws) := by
  refine ⟨?_, ?_, ?_⟩
  · simp only [write_section_to_file, hfs]
    rw [if_neg (by simp)]
    have hrc : randomChoice [] (pick 0) = none := rfl
    simp only [writeLoop, hrc]
    simp
  · have h3 : target = "champs" ∨ target = "dual" ∨ target = "team" := by
      simpa [target_files] using ht
    rcases h3 with h | h | h <;> subst h <;> decide
  · intro images him
    obtain ⟨ws, hok, -⟩ := writeLoop_ok sexMap images pick him (s0 :: rest) none 0
    refine ⟨headerWrites target ++ ws, ?_⟩
    simp only [write_section_to_file, hfs]
    rw [if_neg (by simp), hok]

/-- Witness for C9: one record routed to `dual` and an empty pool crash after
the header and heading writes; a one-image pool completes. -/
theorem empty_image_pool_crash_witness :
    write_section_to_file [⟨"CMS at UCSD", "Men", "b"⟩] "dual" create_section_mapping
        get_sex_mapping [] (fun _ => 0) =
      .crashed (headerWrites "dual" ++ [Wr.heading "CMS at UCSD"]) ∧
    headerWrites "dual" ≠ [] := by
  have h := empty_image_pool_crash [⟨"CMS at UCSD", "Men", "b"⟩] "dual"
    create_section_mapping get_sex_mapping (fun _ => 0) ⟨"CMS at UCSD", "Men", "b"⟩ []
    (by decide) (by decide)
  exact ⟨h.1, h.2.1⟩

/-! ### Claim C10 -/

/-- Counterexample for C10 as stated: an empty sheet (fewer than 5 rows)
yields the no-data comment, not the insufficient-data comment. -/
theorem row_offset_counterexample :
    create_latex_content_from_data [] "SCIAC" "men" =
      "% No data available for SCIAC men\n" ∧
    create_latex_content_from_data [] "SCIAC" "men" ≠
      "% Insufficient data for SCIAC men\n" := by
  constructor
  · decide
  · decide

/-- Claim C10 (amended): rows 0 through 4 are never rendered as data (the
output is unchanged under replacing them, row 4 being read only as the unused
column headers); a nonempty sheet with fewer than 5 rows yields only the
insufficient-data comment, and an empty sheet yields only the no-data
comment — in both cases no table blocks. -/
theorem row_offset_amended :
    (∀ (df : List Row) (et g : String), df ≠ [] → df.length < 5 →
      create_latex_content_from_data df et g =
        "% Insufficient data for " ++ et ++ " " ++ g ++ "\n") ∧
    (∀ (et g : String), create_latex_content_from_data [] et g =
        "% No data available for " ++ et ++ " " ++ g ++ "\n") ∧
    (∀ (a b c d e a2 b2 c2 d2 e2 : Row) (rest : List Row) (et g : String),
      create_latex_content_from_data (a :: b :: c :: d :: e :: rest) et g =
        create_latex_content_from_data (a2 :: b2 :: c2 :: d2 :: e2 :: rest) et g) := by
  refine ⟨?_, ?_, ?_⟩
  · intro df et g hne hlt
    unfold create_latex_content_from_data
    rw [if_neg hne, if_pos hlt]
  · intro et g
    rfl
  · intro a b c d e a2 b2 c2 d2 e2 rest et g
    unfold create_latex_content_from_data
    rw [if_neg (by simp), if_neg (by simp), if_neg (by simp), if_neg (by simp)]
    unfold eventLatexLines
    have hfun : (fun (gp : String × List RowData) =>
        create_event_latex gp.1 gp.2 (headersOf (a :: b :: c :: d :: e :: rest))) =
        (fun gp => create_event_latex gp.1 gp.2
          (headersOf (a2 :: b2 :: c2 :: d2 :: e2 :: rest))) :=
      funext fun gp => rfl
    rw [show (a :: b :: c :: d :: e :: rest).drop 5 = rest from rfl,
        show (a2 :: b2 :: c2 :: d2 :: e2 :: rest).drop 5 = rest from rfl, hfun]

/-- Witness for C10: a one-row sheet yields the insufficient-data comment, and
two sheets differing only in their first five rows render identically. -/
theorem row_offset_amended_witness :
    create_latex_content_from_data [blankRow] "NCAA" "women" =
      "% Insufficient data for NCAA women\n" ∧
    create_latex_content_from_data
        (blankRow :: blankRow :: blankRow :: blankRow :: blankRow :: [soloRow2021])
        "x" "y" =
      create_latex_content_from_data
        (soloRow2021 :: blankRow :: blankRow :: blankRow :: blankRow ::
          [soloRow2021]) "x" "y" :=
  ⟨row_offset_amended.1 [blankRow] "NCAA" "women" (by decide) (by decide),
   row_offset_amended.2.2 blankRow blankRow blankRow blankRow blankRow
     soloRow2021 blankRow blankRow blankRow blankRow [soloRow2021] "x" "y"⟩
